import Mathlib

/-!
Verification development for the QR-code generation service.

The definitions below are shallow embeddings of the TypeScript sources:
  * `src/util/qr-encoder.ts` (the content encoders actually imported by
    `src/route/api.ts`): `encodeURL`, `encodeWiFi`, `escapeWiFiField`,
    `encodePromptPay`, `generatePromptPayPayload`, `tlv`, `crc16`;
  * `src/type/index.ts`: `parseQRStyle`;
  * `src/service/qr-generator.ts`: the viewbox arithmetic of
    `addLabelToSVG`, `addBorderToSVG` and the overlay order of `generateSVG`;
  * the styled-module renderer `generateStyledSVGString` (the revision that
    carries it).

JavaScript strings are modeled as Lean `String`s; `charCodeAt` becomes the
UTF-16/code-point value `Char.toNat` (they agree on the Basic Multilingual
Plane, which covers every string considered here).  JavaScript numbers that
the code treats as integers or decimal amounts are modeled as `ℚ`; absent
or NaN values are modeled with `Option`.  Fallible encoders return `Except`.
-/

/-! ## JavaScript-style helpers -/

/-- JS truthiness of an optional string: `undefined` and the empty string
are falsy (used for `x || defaultValue` on string-valued fields). -/
def jsOrStr (o : Option String) (d : String) : String :=
  match o with
  | some s => if s = "" then d else s
  | none => d

/-- `String.prototype.trim()`: strip whitespace from both ends
(implemented over the character list so that it computes by `decide`). -/
def jsTrim (s : String) : String :=
  String.mk (((s.data.dropWhile Char.isWhitespace).reverse.dropWhile Char.isWhitespace).reverse)

/-- `String.prototype.toLowerCase()` (ASCII case mapping). -/
def toLowerStr (s : String) : String :=
  String.mk (s.data.map Char.toLower)

/-- `s.startsWith(p)`. -/
def startsWithStr (s p : String) : Bool :=
  s.data.take p.data.length == p.data

instance {α β : Type} [DecidableEq α] [DecidableEq β] : DecidableEq (Except α β) := fun a b =>
  match a, b with
  | .ok x, .ok y =>
    if h : x = y then isTrue (by rw [h]) else isFalse (fun hc => h (Except.ok.inj hc))
  | .error x, .error y =>
    if h : x = y then isTrue (by rw [h]) else isFalse (fun hc => h (Except.error.inj hc))
  | .ok _, .error _ => isFalse (fun hc => Except.noConfusion hc)
  | .error _, .ok _ => isFalse (fun hc => Except.noConfusion hc)

/-- JS `x || d` for a number that is the result of `Number(...)`/`parseFloat`:
`none` models NaN (falsy), `some 0` is falsy, anything else passes through. -/
def jsOrNum (o : Option ℚ) (d : ℚ) : ℚ :=
  match o with
  | some q => if q = 0 then d else q
  | none => d

/-- JS truthiness of an optional number (`undefined`, NaN and `0` are falsy). -/
def jsTruthyNum (o : Option ℚ) : Bool :=
  match o with
  | some q => q != 0
  | none => false

/-- `String.prototype.padStart(n, c)`. -/
def padStart (n : ℕ) (c : Char) (s : String) : String :=
  if s.length ≥ n then s else String.mk (List.replicate (n - s.length) c) ++ s

/-- `value.length.toString().padStart(2, "0")`: lengths below 10 get one
leading zero, larger lengths print as-is (the decimal repr already has ≥ 2
digits). -/
def numLen2 (n : ℕ) : String :=
  padStart 2 '0' (toString n)

/-! ## PromptPay payload builder (`src/util/qr-encoder.ts`) -/

/-- `id.replace(/[-\s]/g, "")`: drop dashes and whitespace everywhere. -/
def sanitizeId (s : String) : String :=
  String.mk (s.data.filter (fun c => !(c == '-' || c.isWhitespace)))

/-- `/^0\d{9}$/` — 10 characters, the first is `0`, all are digits
(the leading `0` is itself a digit, so this is `0` plus 9 more digits). -/
def mobilePatL (l : List Char) : Bool :=
  l.length == 10 && l.head? == some '0' && l.all Char.isDigit

def mobilePat (s : String) : Bool := mobilePatL s.data

/-- Body of `/^\+?66\d{9}$/` after the optional plus: 11 characters
starting `66`, all digits. -/
def intlCore (l : List Char) : Bool :=
  l.length == 11 && l.take 2 == ['6', '6'] && l.all Char.isDigit

/-- `/^\+?66\d{9}$/` — at most one leading `+`, then `66`, then 9 digits. -/
def intlPatL (l : List Char) : Bool :=
  if l.head? == some '+' then intlCore l.tail else intlCore l

def intlPat (s : String) : Bool := intlPatL s.data

/-- `/^\d{13}$/`. -/
def pat13 (s : String) : Bool := s.length == 13 && s.data.all Char.isDigit

/-- `/^\d{15}$/`. -/
def pat15 (s : String) : Bool := s.length == 15 && s.data.all Char.isDigit

/-- `sanitized.replace(/^\+/, "")`. -/
def dropLeadingPlus (s : String) : String :=
  match s.data with
  | '+' :: r => String.mk r
  | _ => s

/-- The identifier-classification `if`-chain of `generatePromptPayPayload`
(`qr-encoder.ts:182-204`), returning the account field tag and formatted id,
or `none` where the source throws. -/
def classifyPromptPayId (s : String) : Option (String × String) :=
  if mobilePat s then
    some ("01", "0066" ++ padStart 9 '0' (String.mk (s.data.drop 1)))
  else if intlPat s then
    some ("01", "00" ++ dropLeadingPlus s)
  else if pat13 s then
    some ("02", s)
  else if pat15 s then
    some ("03", s)
  else
    none

/-- TLV field: 2-char tag, zero-padded 2-digit decimal length, value. -/
def tlv (tag value : String) : String :=
  tag ++ numLen2 value.length ++ value

/-- `amount.toFixed(2)` for a non-negative decimal amount: round to the
nearest cent (ties up, matching `toFixed` on exactly-representable values)
and print with exactly two decimals. -/
def toFixed2 (q : ℚ) : String :=
  let n : ℕ := (Rat.floor (q * 100 + 1 / 2)).toNat
  toString (n / 100) ++ "." ++ numLen2 (n % 100)

/-! ### CRC-16/CCITT-FALSE (`crc16`, `qr-encoder.ts:242-255`) -/

/-- One iteration of the inner `for (j…)` loop:
`crc = (crc & 0x8000) ? ((crc << 1) ^ 0x1021) & 0xffff : (crc << 1) & 0xffff`. -/
def crcRound (s : ℕ) : ℕ :=
  if s &&& 0x8000 ≠ 0 then ((s <<< 1) ^^^ 0x1021) &&& 0xFFFF
  else (s <<< 1) &&& 0xFFFF

/-- The 8 iterations of the inner loop. -/
def crcRound8 (s : ℕ) : ℕ :=
  crcRound (crcRound (crcRound (crcRound (crcRound (crcRound (crcRound (crcRound s)))))))

/-- One iteration of the outer loop: `crc ^= data.charCodeAt(i) << 8` then
the 8 inner rounds. -/
def crcStep (s c : ℕ) : ℕ :=
  crcRound8 (s ^^^ (c <<< 8))

/-- The UTF-16 code units of a string (`charCodeAt` for BMP characters). -/
def strCodes (s : String) : List ℕ :=
  s.data.map Char.toNat

/-- The final register value of `crc16`: fold the step over all characters
starting from `0xffff`. -/
def crc16core (l : List ℕ) : ℕ :=
  l.foldl crcStep 0xFFFF

/-- `crc.toString(16).toUpperCase().padStart(4, "0")`.  The register is
masked to 16 bits at every round, so the rendered value is below `0x10000`
and this is exactly its four big-endian uppercase hex digits. -/
def hexDigit (d : ℕ) : Char :=
  if d < 10 then Char.ofNat (48 + d) else Char.ofNat (55 + d)

def hex4 (n : ℕ) : String :=
  String.mk [hexDigit (n / 4096 % 16), hexDigit (n / 256 % 16),
             hexDigit (n / 16 % 16), hexDigit (n % 16)]

/-- `crc16(data: string): string`. -/
def crc16 (s : String) : String :=
  hex4 (crc16core (strCodes s))

/-- The error message thrown for unclassifiable identifiers. -/
def invalidIdMsg : String :=
  "Invalid PromptPay ID. Use mobile number (08x-xxx-xxxx), National ID (13 digits), or E-Wallet ID (15 digits)."

/-- `generatePromptPayPayload(id, amount?)` (`qr-encoder.ts:174-230`).
`amount` is `some a` when the JS argument is a defined number `a`. -/
def generatePromptPayPayload (id : String) (amount : Option ℚ) : Except String String :=
  let sanitized := sanitizeId id
  match classifyPromptPayId sanitized with
  | none => .error invalidIdMsg
  | some (accountFieldTag, formattedId) =>
    let merchantAccountInfo := tlv "00" "A000000677010111" ++ tlv accountFieldTag formattedId
    let pointOfInitiation := if jsTruthyNum amount then "12" else "11"
    let payload :=
      tlv "00" "01" ++
      tlv "01" pointOfInitiation ++
      tlv "29" merchantAccountInfo ++
      tlv "53" "764" ++
      (if jsTruthyNum amount then tlv "54" (toFixed2 (amount.getD 0)) else "") ++
      tlv "58" "TH" ++
      "6304"
    .ok (payload ++ crc16 payload)

/-- `encodePromptPay(content)` (`qr-encoder.ts:145-153`): trim the id,
reject empties and negative amounts, and pass the amount through only when
it is positive.  `content.amount ? parseFloat(...) : 0` is modeled by
`amount.getD 0` (absent/falsy input parses to `0`). -/
def encodePromptPay (promptpayId : Option String) (amount : Option ℚ) : Except String String :=
  let rawId := jsTrim (promptpayId.getD "")
  if rawId = "" then .error "PromptPay ID is required"
  else
    let a : ℚ := amount.getD 0
    if a < 0 then .error "Amount cannot be negative"
    else generatePromptPayPayload rawId (if a > 0 then some a else none)

/-! ## URL and WiFi encoders (`qr-encoder.ts`) -/

/-- `/^https?:\/\//i.test(url)`. -/
def hasHttpScheme (s : String) : Bool :=
  let l := toLowerStr s
  startsWithStr l "http://" || startsWithStr l "https://"

/-- `encodeURL` (`qr-encoder.ts:38-43`). -/
def encodeURL (url : Option String) : Except String String :=
  let u := jsTrim (url.getD "")
  if u = "" then .error "URL is required"
  else if !hasHttpScheme u then .ok ("https://" ++ u)
  else .ok u

/-- The WiFi-reserved characters of the escaping regex `([\\;,":])`. -/
def wifiReserved : List Char := ['\\', ';', ',', '"', ':']

/-- `value.replace(/([\\;,":])/, "\\$1")` — NOTE: the regex has no `g`
flag, so only the FIRST reserved character is escaped. -/
def escFirst : List Char → List Char
  | [] => []
  | c :: r => if c ∈ wifiReserved then '\\' :: c :: r else c :: escFirst r

def escapeWiFiField (s : String) : String :=
  String.mk (escFirst s.data)

/-- `encodeWiFi` (`qr-encoder.ts:51-63`); `hidden` is passed as the form
string, compared with `=== "true"`. -/
def encodeWiFi (ssid password encryption hidden : Option String) : Except String String :=
  let ssidT := jsTrim (ssid.getD "")
  if ssidT = "" then .error "WiFi SSID is required"
  else
    let passwordV := password.getD ""
    let encryptionV := jsOrStr encryption "WPA"
    let hiddenB := hidden == some "true"
    .ok ("WIFI:T:" ++ encryptionV ++ ";S:" ++ escapeWiFiField ssidT ++
         ";P:" ++ escapeWiFiField passwordV ++ ";H:" ++
         (if hiddenB then "true" else "false") ++ ";;")

/-! ## Style resolver (`parseQRStyle`, `src/type/index.ts:143-164`) -/

def VALID_DOT_STYLES : List String := ["square", "rounded", "dots"]
def VALID_EC_LEVELS : List String := ["L", "M", "Q", "H"]
def VALID_BORDER_STYLES : List String :=
  ["none", "round-sm", "round-lg", "glow", "corners", "gradient"]

/-- The untrusted input of `parseQRStyle`.  String-valued fields are
`Option String` (`none` = absent/undefined); numeric fields carry the
result of the JS `Number(...)` coercion, with `none` modeling NaN. -/
structure RawStyle where
  fgColor : Option String := none
  bgColor : Option String := none
  dotStyle : Option String := none
  ecLevel : Option String := none
  width : Option ℚ := none
  margin : Option ℚ := none
  labelText : Option String := none
  labelSize : Option ℚ := none
  labelColor : Option String := none
  labelPosition : Option String := none
  borderStyle : Option String := none
  borderColor : Option String := none

/-- The resolved style record (`QRStyle`). -/
structure QRStyle where
  fgColor : String
  bgColor : String
  dotStyle : String
  ecLevel : String
  width : ℚ
  margin : ℚ
  labelText : Option String
  labelSize : ℚ
  labelColor : Option String
  labelPosition : String
  borderStyle : String
  borderColor : Option String

/-- membership test of the `as const` arrays (`VALID_X.includes(raw.x)`);
`undefined` is never a member. -/
def includesOpt (l : List String) (o : Option String) : Bool :=
  match o with
  | some s => l.contains s
  | none => false

/-- `parseQRStyle(raw)`: every field falls back to its default. -/
def parseQRStyle (raw : RawStyle) : QRStyle where
  fgColor := jsOrStr raw.fgColor "#000000"
  bgColor := jsOrStr raw.bgColor "#ffffff"
  dotStyle := if includesOpt VALID_DOT_STYLES raw.dotStyle then raw.dotStyle.getD "square" else "square"
  ecLevel := if includesOpt VALID_EC_LEVELS raw.ecLevel then raw.ecLevel.getD "M" else "M"
  width := jsOrNum raw.width 512
  margin := jsOrNum raw.margin 2
  labelText := match raw.labelText with
    | some s => if s = "" then none else some (jsTrim s)
    | none => none
  labelSize := jsOrNum raw.labelSize 7
  labelColor := match raw.labelColor with
    | some s => if s = "" then none else some s
    | none => none
  labelPosition := if raw.labelPosition = some "top" then "top" else "bottom"
  borderStyle := if includesOpt VALID_BORDER_STYLES raw.borderStyle then raw.borderStyle.getD "none" else "none"
  borderColor := match raw.borderColor with
    | some s => if s = "" then none else some s
    | none => none

/-! ## Styled module renderer (`generateStyledSVGString`) -/

/-- One emitted SVG primitive, with coordinates in module units. -/
inductive Shape where
  | rect (x y : ℚ)
  | circle (cx cy r : ℚ)
  | rrect (x y rx : ℚ)
deriving DecidableEq, Repr

/-- The finder-pattern test of the renderer:
`(r < 7 && c < 7) || (r < 7 && c >= size - 7) || (r >= size - 7 && c < 7)`. -/
def IsFinderModule (size r c : ℕ) : Prop :=
  (r < 7 ∧ c < 7) ∨ (r < 7 ∧ size - 7 ≤ c) ∨ (size - 7 ≤ r ∧ c < 7)

instance (size r c : ℕ) : Decidable (IsFinderModule size r c) := by
  unfold IsFinderModule; infer_instance

/-- The primitive emitted for the dark module at row `r`, column `c`
(the body of the nested loops of `generateStyledSVGString`). -/
def moduleShape (dotStyle : String) (size margin r c : ℕ) : Shape :=
  let x : ℚ := c + margin
  let y : ℚ := r + margin
  if IsFinderModule size r c then .rect x y
  else if dotStyle = "dots" then .circle (x + 1 / 2) (y + 1 / 2) (9 / 20)
  else if dotStyle = "rounded" then .rrect x y (7 / 20)
  else .rect x y

/-- The `pathParts` list built by `generateStyledSVGString`: walk the
row-major module matrix (`modules.data[r * size + c]`) and emit a primitive
for every dark module. -/
def generateStyledSVGString (dotStyle : String) (size margin : ℕ)
    (data : ℕ → Bool) : List Shape :=
  (List.range size).flatMap fun r =>
    (List.range size).filterMap fun c =>
      if data (r * size + c) then some (moduleShape dotStyle size margin r c) else none

/-! ## Overlay geometry (`addLabelToSVG` / `addBorderToSVG`,
`src/service/qr-generator.ts`) -/

/-- `Math.round` (round half toward +∞). -/
def jround (q : ℚ) : ℚ :=
  ((⌊q + 1 / 2⌋ : ℤ) : ℚ)

/-- The extra viewbox height added by `addLabelToSVG`
(`qr-generator.ts:125-130`): `fontSize = Math.round(width * (sizePercent / 100))`,
`gap = Math.round(fontSize * 0.8)`, `extraHeight = gap + fontSize + gap`,
where `sizePercent = style.labelSize || 7`. -/
def labelExtraHeight (w : ℚ) (labelSize : Option ℚ) : ℚ :=
  let fontSize := jround (w * (jsOrNum labelSize 7) / 100)
  let gap := jround (fontSize * (8 / 10))
  gap + fontSize + gap

/-- Viewbox dimensions after `addLabelToSVG` (both label positions add
`extraHeight` to the height and keep the width). -/
def addLabelDims (w h : ℚ) (labelSize : Option ℚ) : ℚ × ℚ :=
  (w, h + labelExtraHeight w labelSize)

/-- `pad = Math.round(vbW * 0.06)` (`qr-generator.ts:195`). -/
def borderPad (w : ℚ) : ℚ :=
  jround (w * (6 / 100))

/-- Viewbox dimensions after `addBorderToSVG`:
`totalW = vbW + pad * 2`, `totalH = vbH + pad * 2`. -/
def addBorderDims (w h : ℚ) : ℚ × ℚ :=
  (w + borderPad w * 2, h + borderPad w * 2)

/-- The dimension pipeline of `generateSVG` (`qr-generator.ts:47-75`):
label first (when `labelText` is truthy), border last (when `borderStyle`
is set and not `"none"`). -/
def generateSVGDims (w h : ℚ) (labelText : Option String)
    (labelSize : Option ℚ) (borderStyle : String) : ℚ × ℚ :=
  let afterLabel :=
    if jsOrStr labelText "" ≠ "" then addLabelDims w h labelSize else (w, h)
  if borderStyle ≠ "none" then addBorderDims afterLabel.1 afterLabel.2
  else afterLabel

/-! ## CRC register lemmas

`crcRound` is GF(2)-linear and injective on 16-bit values; these facts
drive both the single-character-sensitivity analysis and its limits. -/

theorem and_0x8000_eq (s : ℕ) :
    s &&& 0x8000 = if s.testBit 15 then 0x8000 else 0 := by
  have h : (0x8000 : ℕ) = 2 ^ 15 := by norm_num
  rw [h, Nat.and_two_pow]
  cases hb : s.testBit 15 <;> simp

theorem crcRound_of_tb_true {s : ℕ} (h : s.testBit 15 = true) :
    crcRound s = ((s <<< 1) ^^^ 0x1021) &&& 0xFFFF := by
  unfold crcRound
  rw [and_0x8000_eq, h]
  simp

theorem crcRound_of_tb_false {s : ℕ} (h : s.testBit 15 = false) :
    crcRound s = (s <<< 1) &&& 0xFFFF := by
  unfold crcRound
  rw [and_0x8000_eq, h]
  simp

theorem testBit_mask (i : ℕ) : (0xFFFF : ℕ).testBit i = decide (i < 16) := by
  have h : (0xFFFF : ℕ) = 2 ^ 16 - 1 := by norm_num
  rw [h, Nat.testBit_two_pow_sub_one]

theorem xor_shiftLeft (x y k : ℕ) : (x ^^^ y) <<< k = (x <<< k) ^^^ (y <<< k) := by
  apply Nat.eq_of_testBit_eq
  intro i
  simp only [Nat.testBit_shiftLeft, Nat.testBit_xor]
  cases decide (k ≤ i) <;> simp

theorem crcRound_lt (s : ℕ) : crcRound s < 2 ^ 16 := by
  have h : ∀ x : ℕ, x &&& 0xFFFF < 2 ^ 16 := fun x =>
    lt_of_le_of_lt Nat.and_le_right (by norm_num)
  unfold crcRound
  split <;> exact h _

theorem crcRound_zero : crcRound 0 = 0 := by decide

theorem xor_ac (a b c : ℕ) : a ^^^ b ^^^ (c ^^^ b) = a ^^^ c := by
  apply Nat.eq_of_testBit_eq
  intro i
  simp only [Nat.testBit_xor]
  cases a.testBit i <;> cases b.testBit i <;> cases c.testBit i <;> rfl

theorem crcRound_xor (x y : ℕ) :
    crcRound (x ^^^ y) = crcRound x ^^^ crcRound y := by
  have htb : (x ^^^ y).testBit 15 = (x.testBit 15).xor (y.testBit 15) := by
    simp [Nat.testBit_xor]
  cases hx : x.testBit 15 <;> cases hy : y.testBit 15 <;>
      rw [hx, hy] at htb <;>
      simp only [Bool.xor_false, Bool.xor_true, Bool.false_xor, Bool.true_xor,
        Bool.not_false, Bool.not_true, Bool.xor_self] at htb
  · rw [crcRound_of_tb_false htb, crcRound_of_tb_false hx,
      crcRound_of_tb_false hy, ← Nat.and_xor_distrib_right, xor_shiftLeft]
  · rw [crcRound_of_tb_true htb, crcRound_of_tb_false hx,
      crcRound_of_tb_true hy, ← Nat.and_xor_distrib_right, xor_shiftLeft,
      Nat.xor_assoc]
  · rw [crcRound_of_tb_true htb, crcRound_of_tb_true hx,
      crcRound_of_tb_false hy, ← Nat.and_xor_distrib_right, xor_shiftLeft]
    congr 1
    apply Nat.eq_of_testBit_eq
    intro i
    simp only [Nat.testBit_xor]
    cases (x <<< 1).testBit i <;> cases (y <<< 1).testBit i <;>
      cases (0x1021 : ℕ).testBit i <;> rfl
  · rw [crcRound_of_tb_false htb, crcRound_of_tb_true hx,
      crcRound_of_tb_true hy, ← Nat.and_xor_distrib_right, xor_shiftLeft]
    congr 1
    apply Nat.eq_of_testBit_eq
    intro i
    simp only [Nat.testBit_xor]
    cases (x <<< 1).testBit i <;> cases (y <<< 1).testBit i <;>
      cases (0x1021 : ℕ).testBit i <;> rfl

theorem crcRound_eq_zero {s : ℕ} (hlt : s < 2 ^ 16) (h : crcRound s = 0) :
    s = 0 := by
  have h15 : s.testBit 15 = false := by
    by_contra hb
    rw [Bool.not_eq_false] at hb
    rw [crcRound_of_tb_true hb] at h
    have h0 := congrArg (fun z => z.testBit 0) h
    simp only [Nat.testBit_and, Nat.testBit_xor, Nat.testBit_shiftLeft,
      testBit_mask, Nat.zero_testBit] at h0
    norm_num at h0
  rw [crcRound_of_tb_false h15] at h
  apply Nat.eq_of_testBit_eq
  intro i
  rw [Nat.zero_testBit]
  by_cases hi : i = 15
  · rw [hi]; exact h15
  by_cases hi16 : 16 ≤ i
  · exact Nat.testBit_lt_two_pow (lt_of_lt_of_le hlt (Nat.pow_le_pow_right (by norm_num) hi16))
  · have hlt15 : i < 15 := by omega
    have hbit := congrArg (fun z => z.testBit (i + 1)) h
    simp only [Nat.testBit_and, Nat.testBit_shiftLeft, testBit_mask,
      Nat.zero_testBit, Nat.add_sub_cancel] at hbit
    simpa [show i + 1 ≥ 1 by omega, show i + 1 < 16 by omega] using hbit

theorem crcRound8_lt (s : ℕ) : crcRound8 s < 2 ^ 16 := crcRound_lt _

theorem crcRound8_xor (x y : ℕ) :
    crcRound8 (x ^^^ y) = crcRound8 x ^^^ crcRound8 y := by
  unfold crcRound8
  rw [crcRound_xor, crcRound_xor, crcRound_xor, crcRound_xor, crcRound_xor,
    crcRound_xor, crcRound_xor, crcRound_xor]

theorem crcRound8_zero : crcRound8 0 = 0 := by decide

theorem crcRound8_eq_zero {s : ℕ} (hlt : s < 2 ^ 16) (h : crcRound8 s = 0) :
    s = 0 := by
  unfold crcRound8 at h
  exact crcRound_eq_zero hlt (crcRound_eq_zero (crcRound_lt _)
    (crcRound_eq_zero (crcRound_lt _) (crcRound_eq_zero (crcRound_lt _)
      (crcRound_eq_zero (crcRound_lt _) (crcRound_eq_zero (crcRound_lt _)
        (crcRound_eq_zero (crcRound_lt _) (crcRound_eq_zero (crcRound_lt _) h)))))))

/-- Bits at positions 16 and above never reach the register: one round of a
pure high-bit value is `0`. -/
theorem crcRound_shiftLeft16 (h : ℕ) : crcRound (h <<< 16) = 0 := by
  have htb : (h <<< 16).testBit 15 = false := by
    simp [Nat.testBit_shiftLeft]
  rw [crcRound_of_tb_false htb]
  apply Nat.eq_of_testBit_eq
  intro i
  simp only [Nat.testBit_and, testBit_mask, Nat.zero_testBit]
  by_cases hi : i < 16
  · have hsh : ((h <<< 16) <<< 1).testBit i = false := by
      simp only [Nat.testBit_shiftLeft]
      simp [show ¬ (16 ≤ i - 1) by omega]
    simp [hsh]
  · simp [hi]

theorem crcRound8_shiftLeft16 (h : ℕ) : crcRound8 (h <<< 16) = 0 := by
  unfold crcRound8
  rw [crcRound_shiftLeft16]
  decide

theorem xor_eq_zero_iff {x y : ℕ} : x ^^^ y = 0 ↔ x = y := by
  constructor
  · intro h
    apply Nat.eq_of_testBit_eq
    intro i
    have hb := congrArg (fun z => z.testBit i) h
    simp only [Nat.testBit_xor, Nat.zero_testBit] at hb
    cases hx : x.testBit i <;> cases hy : y.testBit i <;>
      rw [hx, hy] at hb <;> simp_all
  · rintro rfl
    exact Nat.xor_self x

theorem xor_ac2 (b a c : ℕ) : (b ^^^ a) ^^^ (b ^^^ c) = a ^^^ c := by
  apply Nat.eq_of_testBit_eq
  intro i
  simp only [Nat.testBit_xor]
  cases a.testBit i <;> cases b.testBit i <;> cases c.testBit i <;> rfl

/-- Split a code into its low byte and the rest:
`d <<< 8 = ((d % 2^8) <<< 8) ^^^ ((d >>> 8) <<< 16)`. -/
theorem shiftLeft8_split (d : ℕ) :
    d <<< 8 = ((d % 2 ^ 8) <<< 8) ^^^ ((d >>> 8) <<< 16) := by
  apply Nat.eq_of_testBit_eq
  intro i
  simp only [Nat.testBit_xor, Nat.testBit_shiftLeft, Nat.testBit_mod_two_pow,
    Nat.testBit_shiftRight]
  by_cases h8 : 8 ≤ i
  · by_cases h16 : 16 ≤ i
    · have e1 : ¬ (i - 8 < 8) := by omega
      have e2 : 8 + (i - 16) = i - 8 := by omega
      simp [h8, h16, e1, e2]
    · have e1 : i - 8 < 8 := by omega
      simp [h8, h16, e1]
  · have h16 : ¬ (16 ≤ i) := by omega
    simp [h8, h16]

theorem crcStep_lt (s c : ℕ) : crcStep s c < 2 ^ 16 := crcRound8_lt _

/-- Only the low byte of a character code reaches the register. -/
theorem crcStep_mod (s c : ℕ) : crcStep s c = crcStep s (c % 256) := by
  unfold crcStep
  have h256 : (256 : ℕ) = 2 ^ 8 := by norm_num
  rw [h256]
  have hsplit : s ^^^ (c <<< 8) = (s ^^^ ((c % 2 ^ 8) <<< 8)) ^^^ ((c >>> 8) <<< 16) := by
    rw [shiftLeft8_split c, ← Nat.xor_assoc]
  rw [hsplit, crcRound8_xor, crcRound8_shiftLeft16, Nat.xor_zero]

/-- Same state, two characters: the output difference is the 8-round image
of the injected difference. -/
theorem crcStep_same_state_diff (s c d : ℕ) :
    crcStep s c ^^^ crcStep s d = crcRound8 ((c ^^^ d) <<< 8) := by
  unfold crcStep
  rw [← crcRound8_xor]
  congr 1
  rw [xor_ac2, xor_shiftLeft]

/-- Two states, same character: the output difference is the 8-round image
of the state difference. -/
theorem crcStep_same_char_diff (u v c : ℕ) :
    crcStep u c ^^^ crcStep v c = crcRound8 (u ^^^ v) := by
  unfold crcStep
  rw [← crcRound8_xor]
  congr 1
  exact xor_ac u (c <<< 8) v

theorem foldl_crcStep_lt (l : List ℕ) (s : ℕ) (hs : s < 2 ^ 16) :
    l.foldl crcStep s < 2 ^ 16 := by
  induction l generalizing s with
  | nil => exact hs
  | cons c t ih => exact ih _ (crcStep_lt s c)

/-- Distinct 16-bit states stay distinct under any common suffix. -/
theorem foldl_crcStep_ne (l : List ℕ) (u v : ℕ) (hu : u < 2 ^ 16)
    (hv : v < 2 ^ 16) (huv : u ≠ v) :
    l.foldl crcStep u ≠ l.foldl crcStep v := by
  induction l generalizing u v with
  | nil => exact huv
  | cons c t ih =>
    apply ih _ _ (crcStep_lt u c) (crcStep_lt v c)
    intro hstep
    apply huv
    have hdiff : crcStep u c ^^^ crcStep v c = 0 := xor_eq_zero_iff.mpr hstep
    rw [crcStep_same_char_diff] at hdiff
    have huv16 : u ^^^ v < 2 ^ 16 := Nat.xor_lt_two_pow hu hv
    exact xor_eq_zero_iff.mp (crcRound8_eq_zero huv16 hdiff)

/-- Changing one character whose code differs modulo 256 changes the final
CRC register. -/
theorem crc16core_single_change (pre suf : List ℕ) (c d : ℕ)
    (hne : c % 256 ≠ d % 256) :
    crc16core (pre ++ c :: suf) ≠ crc16core (pre ++ d :: suf) := by
  unfold crc16core
  rw [List.foldl_append, List.foldl_append]
  set s := pre.foldl crcStep 0xFFFF with hs
  have hslt : s < 2 ^ 16 := foldl_crcStep_lt pre 0xFFFF (by norm_num)
  simp only [List.foldl_cons]
  apply foldl_crcStep_ne _ _ _ (crcStep_lt s c) (crcStep_lt s d)
  intro hstep
  apply hne
  have h0 : crcStep s c ^^^ crcStep s d = 0 := xor_eq_zero_iff.mpr hstep
  rw [crcStep_mod s c, crcStep_mod s d, crcStep_same_state_diff] at h0
  set m := c % 256 with hm
  set n := d % 256 with hn
  have hmlt : m < 2 ^ 8 := Nat.mod_lt _ (by norm_num)
  have hnlt : n < 2 ^ 8 := Nat.mod_lt _ (by norm_num)
  have hxlt : m ^^^ n < 2 ^ 8 := Nat.xor_lt_two_pow hmlt hnlt
  have hshlt : (m ^^^ n) <<< 8 < 2 ^ 16 := by
    rw [Nat.shiftLeft_eq]
    calc (m ^^^ n) * 2 ^ 8 < 2 ^ 8 * 2 ^ 8 := by
          exact Nat.mul_lt_mul_of_lt_of_le hxlt (le_refl _) (by norm_num)
      _ = 2 ^ 16 := by norm_num
  have hz : (m ^^^ n) <<< 8 = 0 := crcRound8_eq_zero hshlt h0
  rw [Nat.shiftLeft_eq] at hz
  have : m ^^^ n = 0 := by
    rcases Nat.mul_eq_zero.mp hz with h | h
    · exact h
    · norm_num at h
  exact xor_eq_zero_iff.mp this

/-! ## Spec-side definitions used for comparison -/

/-- Decimal value of an uppercase hex digit character (decoder for
`hexDigit`, used to prove `hex4` injective). -/
def hexVal (c : Char) : ℕ :=
  if c.toNat ≤ 57 then c.toNat - 48 else c.toNat - 55

/-- Modelled from the spec (§4.2): "Identifier normalization (strip
spaces/dashes/plus first)". -/
def specStripId (s : String) : String :=
  String.mk (s.data.filter (fun c => !(c == '-' || c == '+' || c.isWhitespace)))

/-- `0066` followed by 9 digits (pattern 4 of the spec's precedence list):
13 characters starting `0066`, all digits. -/
def pat0066 (s : String) : Bool :=
  s.length == 13 && s.data.take 4 == ['0', '0', '6', '6'] && s.data.all Char.isDigit

/-- `66` followed by 9 digits, with no plus (pattern 3 of the spec's list;
the spec strips plus signs beforehand). -/
def pat66 (s : String) : Bool := intlCore s.data

/-- Modelled from the spec (§4.2): classify by exact pattern in the spec's
stated precedence — 13-digit, Thai mobile, `66`+9, `0066`+9, 15-digit. -/
def specClassifyPromptPayId (s : String) : Option (String × String) :=
  if pat13 s then some ("02", s)
  else if mobilePat s then some ("01", "0066" ++ String.mk (s.data.drop 1))
  else if pat66 s then some ("01", "00" ++ s)
  else if pat0066 s then some ("01", s)
  else if pat15 s then some ("03", s)
  else none

/-- The claim's description of the three finder-pattern regions: rows and
columns 0–6 at the top-left, top-right and bottom-left corners. -/
def FinderRegionSpec (size r c : ℕ) : Prop :=
  (r ≤ 6 ∧ c ≤ 6) ∨ (r ≤ 6 ∧ size - 7 ≤ c) ∨ (size - 7 ≤ r ∧ c ≤ 6)

instance (size r c : ℕ) : Decidable (FinderRegionSpec size r c) := by
  unfold FinderRegionSpec; infer_instance

/-- The pre-checksum payload built for identifier `"0812345678"` with no
amount (70 characters, ending in the literal checksum header `6304`). -/
def ppExamplePayload : String :=
  "00020101021129370016A0000006770101110113006681234567853037645802TH6304"

/-- `ppExamplePayload` with its first character `0` (code 0x30) replaced by
the character with UTF-16 code 0x1030: a single-character change that only
touches the high byte of the code unit. -/
def ppExampleMutated : String :=
  "ူ" ++ ppExamplePayload.drop 1

/-- The sixteen uppercase hexadecimal digit characters. -/
def hexCharsUpper : List Char :=
  ['0', '1', '2', '3', '4', '5', '6', '7', '8', '9', 'A', 'B', 'C', 'D', 'E', 'F']

/-! ## Pattern and rendering support lemmas -/

theorem mobilePat_parts {s : String} (h : mobilePat s = true) :
    s.data.length = 10 ∧ s.data.head? = some '0' ∧ ∀ ch ∈ s.data, ch.isDigit := by
  simp only [mobilePat, mobilePatL, Bool.and_eq_true, beq_iff_eq, List.all_eq_true] at h
  exact ⟨h.1.1, h.1.2, h.2⟩

theorem intlCore_parts {l : List Char} (h : intlCore l = true) :
    l.length = 11 ∧ l.take 2 = ['6', '6'] ∧ ∀ ch ∈ l, ch.isDigit := by
  simp only [intlCore, Bool.and_eq_true, beq_iff_eq, List.all_eq_true] at h
  exact ⟨h.1.1, h.1.2, h.2⟩

theorem intlPat_length {s : String} (h : intlPat s = true) :
    s.data.length = 11 ∨ s.data.length = 12 := by
  unfold intlPat intlPatL at h
  split_ifs at h with hp
  · right
    have htail := (intlCore_parts h).1
    simp only [beq_iff_eq] at hp
    have hne : s.data ≠ [] := by
      intro h0
      rw [h0] at hp
      simp at hp
    have := List.length_tail s.data
    have hpos : 0 < s.data.length := List.length_pos.mpr hne
    omega
  · left
    exact (intlCore_parts h).1

theorem pat13_parts {s : String} (h : pat13 s = true) :
    s.data.length = 13 ∧ ∀ ch ∈ s.data, ch.isDigit := by
  simp only [pat13, Bool.and_eq_true, beq_iff_eq, List.all_eq_true, String.length] at h
  exact h

theorem pat15_parts {s : String} (h : pat15 s = true) :
    s.data.length = 15 ∧ ∀ ch ∈ s.data, ch.isDigit := by
  simp only [pat15, Bool.and_eq_true, beq_iff_eq, List.all_eq_true, String.length] at h
  exact h

theorem hexVal_hexDigit {d : ℕ} (hd : d < 16) : hexVal (hexDigit d) = d := by
  interval_cases d <;> decide

theorem hexDigit_mem {d : ℕ} (hd : d < 16) : hexDigit d ∈ hexCharsUpper := by
  interval_cases d <;> decide

theorem hex4_length (n : ℕ) : (hex4 n).length = 4 := rfl

theorem hex4_inj {n m : ℕ} (hn : n < 2 ^ 16) (hm : m < 2 ^ 16)
    (h : hex4 n = hex4 m) : n = m := by
  have hdata := congrArg String.data h
  simp only [hex4, List.cons.injEq, and_true] at hdata
  obtain ⟨e3, e2, e1, e0⟩ := hdata
  have d3 := congrArg hexVal e3
  have d2 := congrArg hexVal e2
  have d1 := congrArg hexVal e1
  have d0 := congrArg hexVal e0
  rw [hexVal_hexDigit (Nat.mod_lt _ (by norm_num)),
    hexVal_hexDigit (Nat.mod_lt _ (by norm_num))] at d3 d2 d1 d0
  omega

theorem crc16core_lt (l : List ℕ) : crc16core l < 2 ^ 16 :=
  foldl_crcStep_lt l 0xFFFF (by norm_num)

theorem crc16_length (s : String) : (crc16 s).length = 4 := rfl

theorem crc16_chars (s : String) : ∀ ch ∈ (crc16 s).data, ch ∈ hexCharsUpper := by
  intro ch hch
  simp only [crc16, hex4, List.mem_cons, List.not_mem_nil, or_false] at hch
  rcases hch with h | h | h | h <;> rw [h] <;>
    exact hexDigit_mem (Nat.mod_lt _ (by norm_num))

/-! ## Claim theorems -/

/-- C4 (code bug): `encodeWiFi` produces the claimed output when each field
has at most one reserved character (the claim's own example works), but the
escaping regex lacks the `g` flag, so only the FIRST reserved character of a
field is escaped: ssid `a;b;c` yields `a\;b;c`, not `a\;b\;c`, contradicting
"every occurrence … is backslash-escaped" and breaking the round-trip. -/
theorem wifi_escape_first_only :
    encodeWiFi (some "Home;Net") (some "p@ss") (some "WPA") (some "false") =
      .ok "WIFI:T:WPA;S:Home\\;Net;P:p@ss;H:false;;" ∧
    encodeWiFi (some "a;b;c") (some "p;q") (some "WPA") (some "false") =
      .ok "WIFI:T:WPA;S:a\\;b;c;P:p\\;q;H:false;;" ∧
    escapeWiFiField "a;b;c" ≠ "a\\;b\\;c" := by
  exact ⟨by decide, by decide, by decide⟩

/-- C8: for every non-empty trimmed url, `encodeURL` prepends `https://`
exactly when the trimmed input lacks a (case-insensitive) `http://` or
`https://` prefix, and otherwise returns the trimmed input unchanged. -/
theorem url_scheme_normalization (url : String) (h : jsTrim url ≠ "") :
    (hasHttpScheme (jsTrim url) = false →
      encodeURL (some url) = .ok ("https://" ++ jsTrim url)) ∧
    (hasHttpScheme (jsTrim url) = true →
      encodeURL (some url) = .ok (jsTrim url)) := by
  constructor <;> intro hs <;> simp [encodeURL, h, hs]

theorem url_scheme_normalization_witness :
    jsTrim "example.com" ≠ "" ∧
    encodeURL (some "example.com") = .ok "https://example.com" := by
  refine ⟨by decide, ?_⟩
  exact (url_scheme_normalization "example.com" (by decide)).1 (by decide)

/-- C6: `parseQRStyle` resolves every raw style mapping without failing:
enumerated fields outside their valid sets fall back to `"square"`, `"M"`
and `"none"`; missing colors fall back to `#000000` / `#ffffff`; numeric
fields whose `Number(...)` parse is falsy (NaN or `0`) fall back to the
defaults 512 and 2; and the resolved enumerated fields always lie in the
valid sets. -/
theorem parseQRStyle_defaults (raw : RawStyle) :
    ((∀ s, raw.dotStyle = some s → s ∉ VALID_DOT_STYLES) →
      (parseQRStyle raw).dotStyle = "square") ∧
    ((∀ s, raw.ecLevel = some s → s ∉ VALID_EC_LEVELS) →
      (parseQRStyle raw).ecLevel = "M") ∧
    ((∀ s, raw.borderStyle = some s → s ∉ VALID_BORDER_STYLES) →
      (parseQRStyle raw).borderStyle = "none") ∧
    (raw.fgColor = none → (parseQRStyle raw).fgColor = "#000000") ∧
    (raw.bgColor = none → (parseQRStyle raw).bgColor = "#ffffff") ∧
    ((raw.width = none ∨ raw.width = some 0) → (parseQRStyle raw).width = 512) ∧
    ((raw.margin = none ∨ raw.margin = some 0) → (parseQRStyle raw).margin = 2) ∧
    (parseQRStyle raw).dotStyle ∈ VALID_DOT_STYLES ∧
    (parseQRStyle raw).ecLevel ∈ VALID_EC_LEVELS ∧
    (parseQRStyle raw).borderStyle ∈ VALID_BORDER_STYLES := by
  refine ⟨?_, ?_, ?_, ?_, ?_, ?_, ?_, ?_, ?_, ?_⟩
  · intro hinv
    cases hds : raw.dotStyle with
    | none => simp [parseQRStyle, includesOpt, hds]
    | some s =>
      have hmem := hinv s hds
      simp [parseQRStyle, includesOpt, hds, List.elem_eq_mem, hmem]
  · intro hinv
    cases hds : raw.ecLevel with
    | none => simp [parseQRStyle, includesOpt, hds]
    | some s =>
      have hmem := hinv s hds
      simp [parseQRStyle, includesOpt, hds, List.elem_eq_mem, hmem]
  · intro hinv
    cases hds : raw.borderStyle with
    | none => simp [parseQRStyle, includesOpt, hds]
    | some s =>
      have hmem := hinv s hds
      simp [parseQRStyle, includesOpt, hds, List.elem_eq_mem, hmem]
  · intro h0; simp [parseQRStyle, jsOrStr, h0]
  · intro h0; simp [parseQRStyle, jsOrStr, h0]
  · rintro (h0 | h0) <;> simp [parseQRStyle, jsOrNum, h0]
  · rintro (h0 | h0) <;> simp [parseQRStyle, jsOrNum, h0]
  · cases hds : raw.dotStyle with
    | none => simp [parseQRStyle, includesOpt, hds]; decide
    | some s =>
      by_cases hmem : s ∈ VALID_DOT_STYLES
      · simp [parseQRStyle, includesOpt, hds, List.elem_eq_mem, hmem]
      · simp [parseQRStyle, includesOpt, hds, List.elem_eq_mem, hmem]; decide
  · cases hds : raw.ecLevel with
    | none => simp [parseQRStyle, includesOpt, hds]; decide
    | some s =>
      by_cases hmem : s ∈ VALID_EC_LEVELS
      · simp [parseQRStyle, includesOpt, hds, List.elem_eq_mem, hmem]
      · simp [parseQRStyle, includesOpt, hds, List.elem_eq_mem, hmem]; decide
  · cases hds : raw.borderStyle with
    | none => simp [parseQRStyle, includesOpt, hds]; decide
    | some s =>
      by_cases hmem : s ∈ VALID_BORDER_STYLES
      · simp [parseQRStyle, includesOpt, hds, List.elem_eq_mem, hmem]
      · simp [parseQRStyle, includesOpt, hds, List.elem_eq_mem, hmem]; decide

theorem parseQRStyle_defaults_witness :
    (parseQRStyle { dotStyle := some "hexagon", ecLevel := some "Z", borderStyle := some "zigzag", width := some 0, margin := some 0 }).dotStyle = "square" ∧
    (parseQRStyle { dotStyle := some "hexagon", ecLevel := some "Z", borderStyle := some "zigzag", width := some 0, margin := some 0 }).ecLevel = "M" ∧
    (parseQRStyle { dotStyle := some "hexagon", ecLevel := some "Z", borderStyle := some "zigzag", width := some 0, margin := some 0 }).borderStyle = "none" ∧
    (parseQRStyle { dotStyle := some "hexagon", ecLevel := some "Z", borderStyle := some "zigzag", width := some 0, margin := some 0 }).fgColor = "#000000" ∧
    (parseQRStyle { dotStyle := some "hexagon", ecLevel := some "Z", borderStyle := some "zigzag", width := some 0, margin := some 0 }).width = 512 ∧
    (parseQRStyle { dotStyle := some "hexagon", ecLevel := some "Z", borderStyle := some "zigzag", width := some 0, margin := some 0 }).margin = 2 := by
  have h := parseQRStyle_defaults { dotStyle := some "hexagon", ecLevel := some "Z", borderStyle := some "zigzag", width := some 0, margin := some 0 }
  exact ⟨h.1 (by intro s hs; cases hs; decide),
    h.2.1 (by intro s hs; cases hs; decide),
    h.2.2.1 (by intro s hs; cases hs; decide),
    h.2.2.2.1 rfl,
    h.2.2.2.2.2.1 (Or.inr rfl),
    h.2.2.2.2.2.2.1 (Or.inr rfl)⟩

/-- C10: the `Number(x) || default` idiom means a falsy parse (absent, NaN
or `0`) of a numeric style field yields the default — width 512, margin 2,
labelSize 7 — and consequently the resolved margin is never `0`, even
though the spec documents margin as a non-negative integer. -/
theorem parseQRStyle_numeric_fallbacks (raw : RawStyle) :
    ((raw.width = none ∨ raw.width = some 0) → (parseQRStyle raw).width = 512) ∧
    ((raw.margin = none ∨ raw.margin = some 0) → (parseQRStyle raw).margin = 2) ∧
    ((raw.labelSize = none ∨ raw.labelSize = some 0) → (parseQRStyle raw).labelSize = 7) ∧
    (parseQRStyle raw).margin ≠ 0 := by
  refine ⟨?_, ?_, ?_, ?_⟩
  · rintro (h0 | h0) <;> simp [parseQRStyle, jsOrNum, h0]
  · rintro (h0 | h0) <;> simp [parseQRStyle, jsOrNum, h0]
  · rintro (h0 | h0) <;> simp [parseQRStyle, jsOrNum, h0]
  · show jsOrNum raw.margin 2 ≠ 0
    cases hm : raw.margin with
    | none => simp [jsOrNum]
    | some q =>
      by_cases hq : q = 0
      · simp [jsOrNum, hq]
      · simp [jsOrNum, hq]

theorem parseQRStyle_numeric_fallbacks_witness :
    (parseQRStyle { width := some 0, margin := some 0, labelSize := some 0 }).width = 512 ∧
    (parseQRStyle { width := some 0, margin := some 0, labelSize := some 0 }).margin = 2 ∧
    (parseQRStyle { width := some 0, margin := some 0, labelSize := some 0 }).labelSize = 7 ∧
    (parseQRStyle { width := some 0, margin := some 0, labelSize := some 0 }).margin ≠ 0 := by
  have h := parseQRStyle_numeric_fallbacks { width := some 0, margin := some 0, labelSize := some 0 }
  exact ⟨h.1 (Or.inr rfl), h.2.1 (Or.inr rfl), h.2.2.1 (Or.inr rfl), h.2.2.2⟩

/-- C5: in the styled renderer, every dark module inside one of the three
7×7 finder-pattern regions is emitted as a plain unit square regardless of
`dotStyle`; every dark module outside them is emitted as a circle of radius
0.45 centered in the module for `"dots"`, and as a unit square with corner
radius 0.35 for `"rounded"`; and the emitted primitive occurs in the
renderer's output list, for every matrix of size at least 21. -/
theorem finder_modules_square (dotStyle : String) (size margin : ℕ)
    (data : ℕ → Bool) (r c : ℕ) (hsize : 21 ≤ size) (hr : r < size)
    (hc : c < size) (hdark : data (r * size + c) = true) :
    (FinderRegionSpec size r c →
      moduleShape dotStyle size margin r c = Shape.rect (c + margin) (r + margin)) ∧
    (¬ FinderRegionSpec size r c → dotStyle = "dots" →
      moduleShape dotStyle size margin r c =
        Shape.circle ((c : ℚ) + margin + 1 / 2) ((r : ℚ) + margin + 1 / 2) (9 / 20)) ∧
    (¬ FinderRegionSpec size r c → dotStyle = "rounded" →
      moduleShape dotStyle size margin r c =
        Shape.rrect ((c : ℚ) + margin) ((r : ℚ) + margin) (7 / 20)) ∧
    moduleShape dotStyle size margin r c ∈ generateStyledSVGString dotStyle size margin data := by
  have hiff : FinderRegionSpec size r c ↔ IsFinderModule size r c := by
    unfold FinderRegionSpec IsFinderModule
    omega
  refine ⟨?_, ?_, ?_, ?_⟩
  · intro hf
    simp [moduleShape, hiff.mp hf]
  · intro hnf hdots
    have hcode : ¬ IsFinderModule size r c := fun hm => hnf (hiff.mpr hm)
    simp [moduleShape, hcode, hdots]
  · intro hnf hrounded
    have hcode : ¬ IsFinderModule size r c := fun hm => hnf (hiff.mpr hm)
    have hne : dotStyle ≠ "dots" := by rw [hrounded]; decide
    simp [moduleShape, hcode, hrounded]
  · unfold generateStyledSVGString
    refine List.mem_flatMap.mpr ⟨r, List.mem_range.mpr hr, ?_⟩
    refine List.mem_filterMap.mpr ⟨c, List.mem_range.mpr hc, ?_⟩
    simp [hdark]

theorem finder_modules_square_witness :
    moduleShape "dots" 21 2 0 0 = Shape.rect 2 2 ∧
    moduleShape "dots" 21 2 (0 : ℕ) (0 : ℕ) ∈
      generateStyledSVGString "dots" 21 2 (fun _ => true) := by
  have h := finder_modules_square "dots" 21 2 (fun _ => true) 0 0
    (by norm_num) (by norm_num) (by norm_num) rfl
  refine ⟨?_, h.2.2.2⟩
  have h1 := h.1 (by unfold FinderRegionSpec; omega)
  simpa using h1

/-- C7 (counterexample): at pre-border viewbox width 25 the border pad is
`Math.round(25 × 0.06) = 2`, so the width grows by 4, not by the claimed
exact `2 × 6% × 25 = 3`; and the label delta at width 25, labelSize 7 is
`6`, not the claimed exact `2 × (0.8 × 1.75) + 1.75 = 4.55`. -/
theorem overlay_deltas_counterexample :
    addBorderDims 25 25 = (29, 29) ∧
    (29 : ℚ) ≠ 25 + 2 * (6 / 100 * 25) ∧
    labelExtraHeight 25 (some 7) = 6 ∧
    (6 : ℚ) ≠ 2 * (8 / 10 * (25 * 7 / 100)) + 25 * 7 / 100 := by
  have hpad : borderPad 25 = 2 := by
    unfold borderPad jround
    norm_num [Int.floor_eq_iff]
  have hfont : jround ((25 : ℚ) * jsOrNum (some 7) 7 / 100) = 2 := by
    unfold jround jsOrNum
    norm_num [Int.floor_eq_iff]
  refine ⟨?_, by norm_num, ?_, by norm_num⟩
  · unfold addBorderDims
    rw [hpad]
    norm_num
  · unfold labelExtraHeight
    rw [hfont]
    unfold jround
    norm_num [Int.floor_eq_iff]

/-- C7 (amended): with the source's `Math.round` in place — pad =
`round(6% · w)`, fontSize = `round(w · labelSize/100)`, gap =
`round(0.8 · fontSize)` — the border overlay adds `2 × pad` to both
dimensions, the label overlay adds `2 × gap + fontSize` to the height, and
when both are requested the label is applied first and the border second,
so the total increase is the sum of both deltas (the border pad is computed
on the width, which the label leaves unchanged). -/
theorem overlay_deltas_amended (w h : ℚ) (lt : Option String) (ls : Option ℚ)
    (bs : String) (hlt : jsOrStr lt "" ≠ "") (hbs : bs ≠ "none") :
    generateSVGDims w h lt ls bs =
      (w + 2 * borderPad w, h + labelExtraHeight w ls + 2 * borderPad w) ∧
    generateSVGDims w h none ls bs = (w + 2 * borderPad w, h + 2 * borderPad w) ∧
    generateSVGDims w h lt ls "none" = (w, h + labelExtraHeight w ls) := by
  refine ⟨?_, ?_, ?_⟩
  · unfold generateSVGDims addLabelDims addBorderDims
    simp only [if_pos hlt, if_pos hbs, Prod.mk.injEq]
    constructor <;> ring
  · unfold generateSVGDims addBorderDims
    have hl : ¬ (jsOrStr (none : Option String) "" ≠ "") := by simp [jsOrStr]
    simp only [if_pos hbs, if_neg hl, Prod.mk.injEq]
    constructor <;> ring
  · unfold generateSVGDims addLabelDims
    have hn : ¬ (("none" : String) ≠ "none") := by simp
    simp only [if_pos hlt, if_neg hn]

theorem overlay_deltas_amended_witness :
    jsOrStr (some "scan me") "" ≠ "" ∧ ("glow" : String) ≠ "none" ∧
    generateSVGDims 100 100 (some "scan me") none "glow" =
      (100 + 2 * borderPad 100, 100 + labelExtraHeight 100 none + 2 * borderPad 100) :=
  ⟨by decide, by decide,
    (overlay_deltas_amended 100 100 (some "scan me") none "glow"
      (by decide) (by decide)).1⟩

/-- Every length below 100 renders as exactly two decimal digits, the tens
digit zero-padded. -/
theorem numLen2_digits :
    ∀ n : ℕ, n < 100 →
      numLen2 n = String.mk [Char.ofNat (48 + n / 10), Char.ofNat (48 + n % 10)] := by
  decide

/-- C1: for every accepted identifier and optional amount, the PromptPay
payload is the fixed TLV sequence — `00`→`01`, `01`→`12` iff the amount is
positive else `11`, `29` wrapping the AID TLV and the account TLV,
`53`→`764`, `54` present iff the amount is positive (two decimals),
`58`→`TH`, then the literal `6304` header (followed by the checksum); each
TLV is tag, then the value's zero-padded 2-digit decimal length, then the
value; and a negative amount yields the `ValidationError`. -/
theorem promptpay_tlv_structure :
    (∀ (id : String) (a : ℚ), jsTrim id ≠ "" → a < 0 →
      encodePromptPay (some id) (some a) = .error "Amount cannot be negative") ∧
    (∀ (id : String) (amt : Option ℚ) (tag acct : String),
      classifyPromptPayId (sanitizeId (jsTrim id)) = some (tag, acct) →
      0 ≤ amt.getD 0 →
      encodePromptPay (some id) amt =
        .ok (tlv "00" "01" ++
          tlv "01" (if 0 < amt.getD 0 then "12" else "11") ++
          tlv "29" (tlv "00" "A000000677010111" ++ tlv tag acct) ++
          tlv "53" "764" ++
          (if 0 < amt.getD 0 then tlv "54" (toFixed2 (amt.getD 0)) else "") ++
          tlv "58" "TH" ++ "6304" ++
          crc16 (tlv "00" "01" ++
            tlv "01" (if 0 < amt.getD 0 then "12" else "11") ++
            tlv "29" (tlv "00" "A000000677010111" ++ tlv tag acct) ++
            tlv "53" "764" ++
            (if 0 < amt.getD 0 then tlv "54" (toFixed2 (amt.getD 0)) else "") ++
            tlv "58" "TH" ++ "6304"))) ∧
    (∀ t v : String, v.length < 100 →
      tlv t v =
        t ++ String.mk [Char.ofNat (48 + v.length / 10), Char.ofNat (48 + v.length % 10)] ++ v) := by
  refine ⟨?_, ?_, ?_⟩
  · intro id a hid hneg
    simp only [encodePromptPay, Option.getD_some]
    rw [if_neg hid, if_pos hneg]
  · intro id amt tag acct hcls hnn
    have hid : jsTrim id ≠ "" := by
      intro h0
      rw [h0] at hcls
      have hnone : classifyPromptPayId (sanitizeId "") = none := by decide
      rw [hnone] at hcls
      exact Option.noConfusion hcls
    simp only [encodePromptPay, Option.getD_some]
    rw [if_neg hid, if_neg (not_lt.mpr hnn)]
    simp only [generatePromptPayPayload, hcls]
    by_cases hpos : 0 < amt.getD 0
    · rw [if_pos hpos]
      have htruthy : jsTruthyNum (some (amt.getD 0)) = true := by
        simp [jsTruthyNum, bne_iff_ne]
        exact hpos.ne'
      simp only [htruthy, if_true, Option.getD_some, if_pos hpos]
    · rw [if_neg hpos]
      have hfalse : jsTruthyNum (none : Option ℚ) = false := rfl
      simp only [hfalse, if_neg hpos]
      simp
  · intro t v h
    rw [tlv, numLen2_digits v.length h]

theorem promptpay_tlv_structure_witness :
    jsTrim "081-234-5678" ≠ "" ∧
    classifyPromptPayId (sanitizeId (jsTrim "081-234-5678")) = some ("01", "0066812345678") ∧
    0 ≤ (some (75 : ℚ)).getD 0 ∧
    encodePromptPay (some "081-234-5678") (some (-5 : ℚ)) = .error "Amount cannot be negative" ∧
    encodePromptPay (some "081-234-5678") (some (75 : ℚ)) =
      .ok (tlv "00" "01" ++
        tlv "01" (if 0 < (some (75 : ℚ)).getD 0 then "12" else "11") ++
        tlv "29" (tlv "00" "A000000677010111" ++ tlv "01" "0066812345678") ++
        tlv "53" "764" ++
        (if 0 < (some (75 : ℚ)).getD 0 then tlv "54" (toFixed2 ((some (75 : ℚ)).getD 0)) else "") ++
        tlv "58" "TH" ++ "6304" ++
        crc16 (tlv "00" "01" ++
          tlv "01" (if 0 < (some (75 : ℚ)).getD 0 then "12" else "11") ++
          tlv "29" (tlv "00" "A000000677010111" ++ tlv "01" "0066812345678") ++
          tlv "53" "764" ++
          (if 0 < (some (75 : ℚ)).getD 0 then tlv "54" (toFixed2 ((some (75 : ℚ)).getD 0)) else "") ++
          tlv "58" "TH" ++ "6304")) :=
  ⟨by decide, by decide, by norm_num,
    promptpay_tlv_structure.1 "081-234-5678" (-5) (by decide) (by norm_num),
    promptpay_tlv_structure.2.1 "081-234-5678" (some 75) "01" "0066812345678"
      (by decide) (by norm_num)⟩

/-- Every successful payload is a prefix ending in `6304` followed by its
own CRC rendering. -/
theorem generatePromptPay_ok_shape (id : String) (amount : Option ℚ) (out : String)
    (h : generatePromptPayPayload id amount = .ok out) :
    ∃ pre, out = pre ++ crc16 pre ∧ ∃ q, pre = q ++ "6304" := by
  cases hcls : classifyPromptPayId (sanitizeId id) with
  | none =>
    simp only [generatePromptPayPayload, hcls] at h
    exact absurd h (by simp)
  | some pr =>
    obtain ⟨t, f⟩ := pr
    simp only [generatePromptPayPayload, hcls, Except.ok.injEq] at h
    exact ⟨_, h.symm, _, rfl⟩

/-- C3: the last four characters of every PromptPay payload are the
CRC-16/CCITT-FALSE register (as computed by the source's shift/xor loop
with polynomial 0x1021 and initial value 0xFFFF, no reflection) over the
entire preceding string including the literal `6304` header, rendered as
4 uppercase hex characters; and the payload for `0812345678` begins
`000201010211`. -/
theorem promptpay_crc_checksum :
    (∀ (id : String) (amt : Option ℚ) (out : String),
      encodePromptPay (some id) amt = .ok out →
      ∃ pre : String,
        out = pre ++ hex4 (crc16core (strCodes pre)) ∧
        (∃ q : String, pre = q ++ "6304") ∧
        (crc16 pre).length = 4 ∧
        ∀ ch ∈ (crc16 pre).data, ch ∈ hexCharsUpper) ∧
    encodePromptPay (some "0812345678") none =
      .ok (ppExamplePayload ++ crc16 ppExamplePayload) ∧
    startsWithStr ppExamplePayload "000201010211" = true := by
  refine ⟨?_, ?_, by decide⟩
  · intro id amt out hok
    simp only [encodePromptPay, Option.getD_some] at hok
    by_cases hid : jsTrim id = ""
    · rw [if_pos hid] at hok
      exact absurd hok (by simp)
    rw [if_neg hid] at hok
    by_cases hneg : amt.getD 0 < 0
    · rw [if_pos hneg] at hok
      exact absurd hok (by simp)
    rw [if_neg hneg] at hok
    obtain ⟨pre, hpre, q, hq⟩ := generatePromptPay_ok_shape _ _ _ hok
    exact ⟨pre, by rw [hpre]; rfl, ⟨q, hq⟩, crc16_length pre, crc16_chars pre⟩
  · have hcls : classifyPromptPayId (sanitizeId (jsTrim "0812345678")) =
        some ("01", "0066812345678") := by decide
    simp only [encodePromptPay, Option.getD_some]
    rw [if_neg (by decide), if_neg (by norm_num)]
    simp only [generatePromptPayPayload, hcls]
    rfl

theorem promptpay_crc_checksum_witness :
    ∃ pre : String,
      ppExamplePayload ++ crc16 ppExamplePayload =
        pre ++ hex4 (crc16core (strCodes pre)) ∧
      (∃ q : String, pre = q ++ "6304") ∧
      (crc16 pre).length = 4 ∧
      ∀ ch ∈ (crc16 pre).data, ch ∈ hexCharsUpper :=
  promptpay_crc_checksum.1 "0812345678" none _ promptpay_crc_checksum.2.1

/-- C9 (counterexample): the checksum reads each character code only
through its low byte (the `<< 8` injection followed by 16-bit masking), so
replacing the payload's first character `0` (code 0x30) with the character
of code 0x1030 is a single-character change that leaves the recomputed
checksum identical. -/
theorem crc_single_char_counterexample :
    encodePromptPay (some "0812345678") none =
      .ok (ppExamplePayload ++ crc16 ppExamplePayload) ∧
    ppExampleMutated ≠ ppExamplePayload ∧
    ppExampleMutated.length = ppExamplePayload.length ∧
    ppExampleMutated.data.drop 1 = ppExamplePayload.data.drop 1 ∧
    crc16 ppExampleMutated = crc16 ppExamplePayload := by
  refine ⟨?_, by decide, by decide, by decide, ?_⟩
  · have hcls : classifyPromptPayId (sanitizeId (jsTrim "0812345678")) =
        some ("01", "0066812345678") := by decide
    simp only [encodePromptPay, Option.getD_some]
    rw [if_neg (by decide), if_neg (by norm_num)]
    simp only [generatePromptPayPayload, hcls]
    rfl
  · obtain ⟨t, h1, h2⟩ : ∃ t, strCodes ppExampleMutated = 4144 :: t ∧
        strCodes ppExamplePayload = 48 :: t :=
      ⟨(strCodes ppExamplePayload).tail, by decide, by decide⟩
    have hstep : crcStep 0xFFFF 4144 = crcStep 0xFFFF 48 := by
      rw [crcStep_mod 0xFFFF 4144, crcStep_mod 0xFFFF 48]
    unfold crc16 crc16core
    rw [h1, h2]
    simp only [List.foldl_cons]
    rw [hstep]

/-- C9 (amended): PromptPay encoding is a pure function (byte-identical on
repeated evaluation), and the CRC is sensitive to every single-character
change whose character codes differ modulo 256 — in particular to every
change between ASCII characters, which is all a payload contains; a change
that only touches the high byte of a code unit (necessarily non-ASCII)
leaves the checksum unchanged. -/
theorem crc_sensitivity_amended :
    (∀ (id : String) (amt : Option ℚ),
      encodePromptPay (some id) amt = encodePromptPay (some id) amt) ∧
    (∀ (pre suf : List ℕ) (c d : ℕ), c % 256 ≠ d % 256 →
      crc16core (pre ++ c :: suf) ≠ crc16core (pre ++ d :: suf) ∧
      hex4 (crc16core (pre ++ c :: suf)) ≠ hex4 (crc16core (pre ++ d :: suf))) := by
  refine ⟨fun id amt => rfl, ?_⟩
  intro pre suf c d hne
  have hcore := crc16core_single_change pre suf c d hne
  refine ⟨hcore, ?_⟩
  intro hhex
  exact hcore (hex4_inj (crc16core_lt _) (crc16core_lt _) hhex)

theorem crc_sensitivity_amended_witness :
    (48 : ℕ) % 256 ≠ 49 % 256 ∧
    crc16core [48, 48] ≠ crc16core [48, 49] ∧
    hex4 (crc16core [48, 48]) ≠ hex4 (crc16core [48, 49]) := by
  have h := crc_sensitivity_amended.2 [48] [] 48 49 (by norm_num)
  exact ⟨by norm_num, h.1, h.2⟩

/-- C2 (counterexample): the code strips only spaces and dashes, not plus
signs, so `+0812345678` — which the claim's normalize-then-classify
procedure accepts as a Thai mobile number — is rejected by the code. -/
theorem promptpay_plus_counterexample :
    encodePromptPay (some "+0812345678") none = .error invalidIdMsg ∧
    sanitizeId "+0812345678" = "+0812345678" ∧
    specStripId "+0812345678" = "0812345678" ∧
    specClassifyPromptPayId (specStripId "+0812345678") =
      some ("01", "0066812345678") := by
  exact ⟨by decide, by decide, by decide, by decide⟩

/-- On plus-free input the code's classification chain and the spec's
five-pattern precedence produce identical results. -/
theorem classify_agree_core (t : String) (hp : ∀ ch ∈ t.data, ch ≠ '+') :
    classifyPromptPayId t = specClassifyPromptPayId t := by
  have hhead : (t.data.head? == some '+') = false := by
    cases ht : t.data with
    | nil => rfl
    | cons c r =>
      have hc := hp c (by rw [ht]; exact List.mem_cons_self c r)
      simp [hc]
  have hintl : intlPat t = pat66 t := by
    unfold intlPat intlPatL pat66
    rw [if_neg (by simp [hhead])]
  have hdlp : dropLeadingPlus t = t := by
    unfold dropLeadingPlus
    split
    · next r heq =>
      exact absurd (hp '+' (by rw [heq]; exact List.mem_cons_self '+' r)) (by simp)
    · rfl
  have h0066 : pat0066 t = true → pat13 t = true := by
    intro h
    simp only [pat0066, Bool.and_eq_true, beq_iff_eq] at h
    simp only [pat13, Bool.and_eq_true, beq_iff_eq]
    exact ⟨h.1.1, h.2⟩
  unfold classifyPromptPayId specClassifyPromptPayId
  by_cases hm : mobilePat t = true
  · have h13 : ¬ (pat13 t = true) := fun h => by
      have hl1 := (pat13_parts h).1
      have hl2 := (mobilePat_parts hm).1
      omega
    rw [if_pos hm, if_neg h13, if_pos hm]
    have hlen : (String.mk (t.data.drop 1)).length = 9 := by
      show (t.data.drop 1).length = 9
      have := (mobilePat_parts hm).1
      simp [List.length_drop, this]
    unfold padStart
    rw [if_pos (by rw [hlen])]
  · rw [if_neg hm]
    by_cases hi : intlPat t = true
    · have h66 : pat66 t = true := by rw [← hintl]; exact hi
      have hlen11 : t.data.length = 11 := (intlCore_parts h66).1
      have h13 : ¬ (pat13 t = true) := fun h => by
        have := (pat13_parts h).1
        omega
      rw [if_pos hi, if_neg h13, if_neg hm, if_pos h66, hdlp]
    · have h66f : ¬ (pat66 t = true) := by rw [← hintl]; exact hi
      rw [if_neg hi]
      by_cases h13 : pat13 t = true
      · rw [if_pos h13, if_pos h13]
      · have h0066f : ¬ (pat0066 t = true) := fun h => h13 (h0066 h)
        rw [if_neg h13, if_neg h13, if_neg hm, if_neg h66f, if_neg h0066f]

/-- C2 (amended): the code strips spaces and dashes only and classifies in
the order mobile, international (optional single leading plus), 13-digit,
15-digit; those four patterns are mutually exclusive, an identifier whose
sanitized form matches none of them raises the `ValidationError` naming the
accepted formats, and on identifiers containing no plus sign the outcome
coincides with the spec's five-pattern precedence (whose `0066` pattern is
subsumed by the 13-digit pattern and classified as tag `02`). -/
theorem promptpay_classification_amended :
    (∀ s : String,
      ¬ (mobilePat s = true ∧ intlPat s = true) ∧
      ¬ (mobilePat s = true ∧ pat13 s = true) ∧
      ¬ (mobilePat s = true ∧ pat15 s = true) ∧
      ¬ (intlPat s = true ∧ pat13 s = true) ∧
      ¬ (intlPat s = true ∧ pat15 s = true) ∧
      ¬ (pat13 s = true ∧ pat15 s = true)) ∧
    (∀ s : String, classifyPromptPayId s = none ↔
      mobilePat s = false ∧ intlPat s = false ∧ pat13 s = false ∧ pat15 s = false) ∧
    (∀ id : String, jsTrim id ≠ "" →
      classifyPromptPayId (sanitizeId (jsTrim id)) = none →
      encodePromptPay (some id) none = .error invalidIdMsg) ∧
    (∀ s : String, (∀ ch ∈ s.data, ch ≠ '+') →
      classifyPromptPayId (sanitizeId s) = specClassifyPromptPayId (specStripId s)) := by
  refine ⟨?_, ?_, ?_, ?_⟩
  · intro s
    have hm := @mobilePat_parts s
    have hi := @intlPat_length s
    have h13 := @pat13_parts s
    have h15 := @pat15_parts s
    refine ⟨?_, ?_, ?_, ?_, ?_, ?_⟩ <;> rintro ⟨ha, hb⟩
    · rcases hi hb with h | h <;> have := (hm ha).1 <;> omega
    · have := (hm ha).1; have := (h13 hb).1; omega
    · have := (hm ha).1; have := (h15 hb).1; omega
    · rcases hi ha with h | h <;> have := (h13 hb).1 <;> omega
    · rcases hi ha with h | h <;> have := (h15 hb).1 <;> omega
    · have := (h13 ha).1; have := (h15 hb).1; omega
  · intro s
    unfold classifyPromptPayId
    split_ifs with h1 h2 h3 h4 <;> simp_all
  · intro id hid hnone
    simp only [encodePromptPay, Option.getD_some]
    rw [if_neg hid, if_neg (by norm_num)]
    simp only [generatePromptPayPayload, hnone]
  · intro s hplus
    have hsan : sanitizeId s = specStripId s := by
      unfold sanitizeId specStripId
      congr 1
      apply List.filter_congr
      intro c hc
      have hcne := hplus c hc
      have hcb : (c == '+') = false := by simp [hcne]
      simp [hcb]
    rw [hsan]
    apply classify_agree_core
    intro ch hch
    unfold specStripId at hch
    simp only [List.mem_filter] at hch
    exact hplus ch hch.1

theorem promptpay_classification_amended_witness :
    (¬ (mobilePat "0066812345678" = true ∧ intlPat "0066812345678" = true)) ∧
    (classifyPromptPayId "abc" = none ↔
      mobilePat "abc" = false ∧ intlPat "abc" = false ∧
      pat13 "abc" = false ∧ pat15 "abc" = false) ∧
    encodePromptPay (some "abc") none = .error invalidIdMsg ∧
    classifyPromptPayId (sanitizeId "0066-812-345-678") =
      specClassifyPromptPayId (specStripId "0066-812-345-678") :=
  ⟨(promptpay_classification_amended.1 "0066812345678").1,
    promptpay_classification_amended.2.1 "abc",
    promptpay_classification_amended.2.2.1 "abc" (by decide) (by decide),
    promptpay_classification_amended.2.2.2 "0066-812-345-678" (by decide)⟩
